import Mathlib

/-!
Shallow embedding of `kern/monitor.c` (JOS-style kernel monitor):
the command tokenizer/dispatcher (`runcmd`), the REPL loop (`monitor`),
and the stack-backtrace engine (`mon_backtrace`, `mon_print_frame`,
`mon_print_symbols`, `mon_print_frame_descr`).

Machine words and addresses are 32-bit; they are modelled as `Nat` with
explicit `% 2^32` where C's unsigned wraparound matters.  Stack memory is
modelled as a byte-addressed word fetch `mem : Nat → Nat` (`mem a` is the
32-bit word stored at byte address `a`; `uint32_t*` arithmetic `p + k`
becomes `a + 4*k`).  Console output is collected as `List String`, one
element per `cprintf` call.
-/

namespace Monitor

/-! ### Tokenizer (`runcmd`, parsing phase) -/

/-- `#define WHITESPACE "\t\r\n "` -/
def WHITESPACE : List Char := ['\t', '\r', '\n', ' ']

/-- `strchr(WHITESPACE, c) != NULL` -/
def isWS (c : Char) : Bool := WHITESPACE.contains c

/-- `#define MAXARGS 16` -/
def MAXARGS : Nat := 16

/-- Unbounded whitespace tokenization of a character buffer: the sequence of
maximal non-whitespace runs, scanned one character at a time with `acc`
holding the (reversed) run in progress.  This is the reference notion of
"the whitespace-separated tokens of a line" used to state token-count
hypotheses; `tokenizeLoop` below is the source's bounded parser. -/
def wsTokensAux : List Char → List Char → List (List Char)
  | [], acc => if acc.isEmpty then [] else [acc.reverse]
  | c :: cs, acc =>
      if isWS c then
        if acc.isEmpty then wsTokensAux cs [] else acc.reverse :: wsTokensAux cs []
      else wsTokensAux cs (c :: acc)

/-- The whitespace-separated tokens of a buffer. -/
def wsTokens (l : List Char) : List (List Char) := wsTokensAux l []

/-- The argument-parsing loop of `runcmd` (monitor.c lines 153-170), with
`allowance` the number of `argv` slots still free before the
`argc == MAXARGS-1` check fires.  One iteration gobbles whitespace
(`dropWhile`), breaks at the end of the buffer, aborts with an error if no
slot is free while a token is pending (the `cprintf("Too many
arguments..."); return 0;` early exit), and otherwise saves the token
(`takeWhile`) and scans past it (`dropWhile`).  `.ok toks` is the final
`argv` contents.  (The destructive NUL-termination of tokens in place does
not affect which tokens are produced.) -/
def tokenizeGo : Nat → List Char → Except Unit (List (List Char))
  | allowance, l =>
      match l.dropWhile isWS with
      | [] => .ok []
      | c :: rest =>
          match allowance with
          | 0 => .error ()
          | a + 1 =>
              (tokenizeGo a (rest.dropWhile (fun d => !isWS d))).map
                ((c :: rest.takeWhile (fun d => !isWS d)) :: ·)

/-- The parsing phase of `runcmd` entered with `argc` arguments already
stored: the check `argc == MAXARGS-1` leaves `MAXARGS - 1 - argc` free
slots.  `runcmd` always enters with `argc = 0`. -/
def tokenizeLoop (l : List Char) (argc : Nat) : Except Unit (List (List Char)) :=
  tokenizeGo (MAXARGS - 1 - argc) l

/-! ### Command table and dispatcher -/

/-- `struct Command` (monitor.c lines 21-26).  A handler receives the full
token list (`argc`/`argv`) and yields its `int` return value; `none` models
a handler whose internal loop does not terminate (it never returns). -/
structure Command where
  name : String
  desc : String
  func : List String → Option Int

/-- Observable outcome of one `runcmd` call: the text `runcmd` itself prints,
which registered handler (if any) it invoked, and the `int` it returns
(`none` if the invoked handler never returns). -/
structure CmdResult where
  output : List String
  invoked : Option String
  ret : Option Int
deriving Repr, DecidableEq

/-- Single quote character, for the `Unknown command '%s'` message. -/
def sq : String := "\x27"

/-- The linear scan `for (i = 0; i < NCOMMANDS; i++) if (strcmp(argv[0],
commands[i].name) == 0) ...` (monitor.c lines 176-179): first entry whose
name equals the token, if any. -/
def findCommand (cmds : List Command) (t : String) : Option Command :=
  match cmds with
  | [] => none
  | c :: cs => if c.name = t then some c else findCommand cs t

/-- `runcmd` (monitor.c lines 145-182): tokenize; on overflow print the
`Too many arguments` message and return 0; on an empty token list return 0
silently; otherwise dispatch on the first token, returning the handler's
value on a match and printing `Unknown command '<token>'` (returning 0)
otherwise. -/
def runcmd (cmds : List Command) (buf : String) : CmdResult :=
  match tokenizeLoop buf.toList 0 with
  | .error _ =>
      { output := ["Too many arguments (max 16)\n"], invoked := none, ret := some 0 }
  | .ok toks =>
      match toks.map (fun t => String.mk t) with
      | [] => { output := [], invoked := none, ret := some 0 }
      | t :: ts =>
          match findCommand cmds t with
          | some c => { output := [], invoked := some c.name, ret := c.func (t :: ts) }
          | none =>
              { output := ["Unknown command " ++ sq ++ t ++ sq ++ "\n"],
                invoked := none, ret := some 0 }

/-- One iteration of the `monitor` REPL loop (monitor.c lines 193-198) on
the line returned by `readline` (`none` = `NULL`).  `some true`: the loop
goes back to reading the next line; `some false`: `runcmd` returned a
negative value and the loop `break`s (terminal state); `none`: the invoked
handler never returned. -/
def monitorStep (cmds : List Command) (line : Option String) : Option Bool :=
  match line with
  | none => some true
  | some buf =>
      match (runcmd cmds buf).ret with
      | none => none
      | some r => some (decide (0 ≤ r))

/-! ### Frame printing -/

/-- `%08x` applied to a 32-bit value: exactly eight lowercase hex digits,
zero-padded (a 32-bit value never needs more than eight). -/
def hex8 (n : Nat) : String :=
  String.mk ((List.range 8).reverse.map (fun i => Nat.digitChar (n % 2 ^ 32 / 16 ^ i % 16)))

/-- The `for (i = 0; i < 5; i++, arg_list++) cprintf("%08x ", *arg_list);`
loop of `mon_print_frame` (monitor.c lines 92-96), with `count` iterations
left and `arg_list` the current byte address. -/
def printArgsLoop (mem : Nat → Nat) (arg_list : Nat) : Nat → String
  | 0 => ""
  | count + 1 => hex8 (mem arg_list) ++ " " ++ printArgsLoop mem (arg_list + 4) count

/-- `mon_print_frame` (monitor.c lines 81-100): one raw frame line.
`arg_list = base_ptr + 2` is byte address `fp + 8`; the loop grabs five
words unconditionally. -/
def mon_print_frame (mem : Nat → Nat) (base_ptr ret_ptr : Nat) : String :=
  "ebp " ++ hex8 base_ptr ++ " eip " ++ hex8 ret_ptr ++ " args " ++
    printArgsLoop mem (base_ptr + 8) 5 ++ "\n"

/-- `struct Eipdebuginfo`, the fields `mon_print_symbols` reads
(declared in `kern/kdebug.h`, which is outside `src/`). -/
structure Eipdebuginfo where
  eip_file : String
  eip_line : Int
  eip_fn_name : String
  eip_fn_namelen : Nat
  eip_fn_addr : Nat
deriving Repr, DecidableEq

/-- Two's-complement reading of a 32-bit value as a C `int`. -/
def toInt32 (n : Nat) : Int :=
  if n % 2 ^ 32 < 2 ^ 31 then (n % 2 ^ 32 : Int) else (n % 2 ^ 32 : Int) - 2 ^ 32

/-- `int offset = (int)ret_ptr - info_ptr->eip_fn_addr;` (monitor.c line
121): 32-bit wrapping subtraction, read back as a signed `int`. -/
def symOffset (ret_ptr fn_addr : Nat) : Int :=
  toInt32 (ret_ptr % 2 ^ 32 + 2 ^ 32 - fn_addr % 2 ^ 32)

/-- The `cprintf("%s:%d: %.*s+%d\n", filename, line_num, name_length,
func_name, offset)` of `mon_print_symbols` (monitor.c line 123): `%.*s`
prints at most `name_length` characters of the function name. -/
def formatSymbolLine (ret_ptr : Nat) (info : Eipdebuginfo) : String :=
  info.eip_file ++ ":" ++ toString info.eip_line ++ ": " ++
    String.mk (info.eip_fn_name.toList.take info.eip_fn_namelen) ++ "+" ++
    toString (symOffset ret_ptr info.eip_fn_addr) ++ "\n"

/-- `mon_print_symbols` (monitor.c lines 102-126).  `debuginfo_eip` lives in
`kern/kdebug.c`, outside `src/`; per the spec it is the external lookup
`resolve(address) -> optional SymbolInfo`.  `junk` is the content of the
stack-allocated `struct Eipdebuginfo info` when the resolver does not
populate it (the local is never initialized by monitor.c itself).  The
`cprintf` is unconditional: `mon_print_symbols` never inspects the
resolver's status, so exactly one line is emitted either way. -/
def mon_print_symbols (resolve : Nat → Option Eipdebuginfo) (junk : Eipdebuginfo)
    (ret_ptr : Nat) : List String :=
  let info := (resolve ret_ptr).getD junk
  [formatSymbolLine ret_ptr info]

/-- `mon_print_frame_descr` (monitor.c lines 128-138): read the saved return
address at `*(base_ptr + 1)` (byte address `fp + 4`), print the raw frame
line, then the symbol line. -/
def mon_print_frame_descr (resolve : Nat → Option Eipdebuginfo) (junk : Eipdebuginfo)
    (mem : Nat → Nat) (base_ptr : Nat) : List String :=
  let ret_ptr := mem (base_ptr + 4)
  mon_print_frame mem base_ptr ret_ptr :: mon_print_symbols resolve junk ret_ptr

/-! ### The backtrace walk -/

/-- Well-formed saved-frame-pointer chain: `FPChain mem fp fps` says that
starting from frame pointer `fp` the saved links (`mem fp` is the word at
offset 0 from `fp`, the saved caller frame pointer) visit exactly the frame
pointers `fps` and then reach the zero sentinel. -/
inductive FPChain (mem : Nat → Nat) : Nat → List Nat → Prop
  | nil : FPChain mem 0 []
  | cons {fp : Nat} {fps : List Nat} (hfp : fp ≠ 0)
      (htail : FPChain mem (mem fp) fps) : FPChain mem fp (fp :: fps)

/-- The `while ((int)base_ptr != 0)` loop of `mon_backtrace` (monitor.c
lines 70-76), returning the list of frame pointers visited, in visit
(callee-to-caller) order.  `fuel` bounds the number of iterations so the
definition is total; `none` means the loop was still running when the fuel
ran out (in particular a walk that never reaches the sentinel is `none` for
every fuel). -/
def monBacktraceLoop (mem : Nat → Nat) : Nat → Nat → Option (List Nat)
  | 0, base_ptr => if base_ptr = 0 then some [] else none
  | fuel + 1, base_ptr =>
      if base_ptr = 0 then some []
      else (monBacktraceLoop mem fuel (mem base_ptr)).map (base_ptr :: ·)

/-- `mon_backtrace` (monitor.c lines 63-79): walk the chain from the current
`ebp`, printing `mon_print_frame_descr` for each visited frame pointer, and
`return 0`.  The result is `(console output, return value)`, or `none` if
the walk does not terminate within `fuel` steps. -/
def mon_backtrace (resolve : Nat → Option Eipdebuginfo) (junk : Eipdebuginfo)
    (mem : Nat → Nat) (fuel ebp : Nat) : Option (List String × Int) :=
  (monBacktraceLoop mem fuel ebp).map
    (fun fps => (fps.flatMap (mon_print_frame_descr resolve junk mem), 0))

/-! ### The built-in command table -/

/-- The `(name, description)` rows of `static struct Command commands[]`
(monitor.c lines 28-32). -/
def commandSpecs : List (String × String) :=
  [("help", "Display this list of commands"),
   ("kerninfo", "Display information about the kernel"),
   ("backtrace", "Display stack backtrace")]

/-- `mon_help` (monitor.c lines 37-45): print every registered command's
name and description, `return 0`. -/
def mon_help : List String × Int :=
  (commandSpecs.map (fun p => p.1 ++ " - " ++ p.2 ++ "\n"), 0)

/-- `mon_kerninfo` (monitor.c lines 47-61): prints linker-symbol facts (its
text depends on external symbols and is out of scope per the spec) and
`return 0`. -/
def mon_kerninfo : Int := 0

/-- `static struct Command commands[]` (monitor.c lines 28-32) with the
three built-in handlers.  `mon_backtrace`'s behaviour depends on the stack
memory, the resolver and the captured `ebp`, so the table is parametrized
by them; its handler returns `none` exactly when the walk does not
terminate within `fuel` steps. -/
def commands (resolve : Nat → Option Eipdebuginfo) (junk : Eipdebuginfo)
    (mem : Nat → Nat) (fuel ebp : Nat) : List Command :=
  [{ name := "help", desc := "Display this list of commands",
     func := fun _ => some mon_help.2 },
   { name := "kerninfo", desc := "Display information about the kernel",
     func := fun _ => some mon_kerninfo },
   { name := "backtrace", desc := "Display stack backtrace",
     func := fun _ => (mon_backtrace resolve junk mem fuel ebp).map (·.2) }]

/-! ### Tokenizer lemmas -/

/-- Leading whitespace does not change the tokens. -/
lemma wsTokens_dropWhile (l : List Char) : wsTokens (l.dropWhile isWS) = wsTokens l := by
  induction l with
  | nil => rfl
  | cons c cs ih =>
      rw [List.dropWhile_cons]
      by_cases hc : isWS c
      · rw [if_pos hc, ih]
        show wsTokensAux cs [] = wsTokensAux (c :: cs) []
        simp [wsTokensAux, hc]
      · rw [if_neg hc]

/-- Mid-token scanning: with run `acc` (reversed, nonempty) in progress the
scanner closes the current token at the next whitespace and continues
after it. -/
lemma wsTokensAux_token (l : List Char) : ∀ acc : List Char, acc ≠ [] →
    wsTokensAux l acc =
      (acc.reverse ++ l.takeWhile (fun d => !isWS d)) ::
        wsTokens (l.dropWhile (fun d => !isWS d)) := by
  induction l with
  | nil =>
      intro acc hacc
      simp [wsTokensAux, wsTokens, hacc]
  | cons c cs ih =>
      intro acc hacc
      by_cases hc : isWS c
      · have hne : acc.isEmpty = false := by simpa using hacc
        rw [wsTokensAux]
        simp only [hc, if_true, hne, Bool.false_eq_true, if_false]
        rw [List.takeWhile_cons, List.dropWhile_cons]
        simp only [hc, Bool.not_true, Bool.false_eq_true, if_false, List.append_nil]
        show _ = _ :: wsTokens (c :: cs)
        have : wsTokens (c :: cs) = wsTokensAux cs [] := by
          show wsTokensAux (c :: cs) [] = _
          simp [wsTokensAux, hc]
        rw [this]
      · rw [wsTokensAux]
        simp only [hc, Bool.false_eq_true, if_false]
        rw [ih (c :: acc) (by simp)]
        rw [List.takeWhile_cons, List.dropWhile_cons]
        simp [hc]

/-- The scanner satisfies the maximal-run unfolding at a non-whitespace
head. -/
lemma wsTokens_cons_eq (c : Char) (rest : List Char) (hc : ¬ isWS c) :
    wsTokens (c :: rest) =
      (c :: rest.takeWhile (fun d => !isWS d)) ::
        wsTokens (rest.dropWhile (fun d => !isWS d)) := by
  show wsTokensAux (c :: rest) [] = _
  rw [wsTokensAux]
  simp only [hc, Bool.false_eq_true, if_false]
  rw [wsTokensAux_token rest [c] (by simp)]
  simp

/-- A buffer of pure whitespace tokenizes to no tokens at all. -/
lemma wsTokens_eq_nil (l : List Char) (h : ∀ c ∈ l, isWS c) : wsTokens l = [] := by
  induction l with
  | nil => rfl
  | cons c cs ih =>
      show wsTokensAux (c :: cs) [] = []
      simp only [wsTokensAux, h c (by simp), if_true, List.isEmpty_nil]
      exact ih (fun d hd => h d (by simp [hd]))

/-- Unfolding of the parsing loop at an exhausted buffer. -/
lemma tokenizeGo_of_nil (a : Nat) (l : List Char) (hd : l.dropWhile isWS = []) :
    tokenizeGo a l = .ok [] := by
  rw [tokenizeGo, hd]

/-- Unfolding of the parsing loop with a token pending and no free slot. -/
lemma tokenizeGo_of_cons_zero (l : List Char) (c : Char) (rest : List Char)
    (hd : l.dropWhile isWS = c :: rest) : tokenizeGo 0 l = .error () := by
  rw [tokenizeGo, hd]

/-- Unfolding of the parsing loop with a token pending and a free slot. -/
lemma tokenizeGo_of_cons_succ (a : Nat) (l : List Char) (c : Char) (rest : List Char)
    (hd : l.dropWhile isWS = c :: rest) :
    tokenizeGo (a + 1) l =
      (tokenizeGo a (rest.dropWhile (fun d => !isWS d))).map
        ((c :: rest.takeWhile (fun d => !isWS d)) :: ·) := by
  rw [tokenizeGo, hd]

/-- A head produced by `dropWhile isWS` is not whitespace. -/
lemma not_isWS_head_dropWhile (l : List Char) (c : Char) (rest : List Char)
    (hd : l.dropWhile isWS = c :: rest) : ¬ isWS c := by
  have hw := List.head?_dropWhile_not isWS l
  rw [hd] at hw
  simpa using hw

/-- Loop correctness: with `a` free `argv` slots the parsing loop succeeds
exactly when the buffer holds at most `a` whitespace-separated tokens, and
then returns precisely those tokens. -/
lemma tokenizeGo_spec (a : Nat) : ∀ l : List Char,
    tokenizeGo a l =
      if (wsTokens l).length ≤ a then .ok (wsTokens l) else .error () := by
  induction a with
  | zero =>
      intro l
      cases hd : l.dropWhile isWS with
      | nil =>
          have h0 : wsTokens l = [] := by rw [← wsTokens_dropWhile, hd]; rfl
          rw [tokenizeGo_of_nil 0 l hd]
          simp [h0]
      | cons c rest =>
          have hc := not_isWS_head_dropWhile l c rest hd
          have heq : wsTokens l =
              (c :: rest.takeWhile (fun d => !isWS d)) ::
                wsTokens (rest.dropWhile (fun d => !isWS d)) := by
            rw [← wsTokens_dropWhile l, hd, wsTokens_cons_eq c rest hc]
          rw [tokenizeGo_of_cons_zero l c rest hd, heq]
          simp
  | succ a ih =>
      intro l
      cases hd : l.dropWhile isWS with
      | nil =>
          have h0 : wsTokens l = [] := by rw [← wsTokens_dropWhile, hd]; rfl
          rw [tokenizeGo_of_nil (a + 1) l hd]
          simp [h0]
      | cons c rest =>
          have hc := not_isWS_head_dropWhile l c rest hd
          have heq : wsTokens l =
              (c :: rest.takeWhile (fun d => !isWS d)) ::
                wsTokens (rest.dropWhile (fun d => !isWS d)) := by
            rw [← wsTokens_dropWhile l, hd, wsTokens_cons_eq c rest hc]
          rw [tokenizeGo_of_cons_succ a l c rest hd, heq,
            ih (rest.dropWhile (fun d => !isWS d))]
          by_cases hlen : (wsTokens (rest.dropWhile (fun d => !isWS d))).length ≤ a
          · have hlen1 : (wsTokens (rest.dropWhile (fun d => !isWS d))).length + 1 ≤ a + 1 := by
              omega
            simp [hlen, hlen1, Except.map]
          · have hlen1 : ¬ ((wsTokens (rest.dropWhile (fun d => !isWS d))).length + 1 ≤ a + 1) := by
              omega
            simp [hlen, hlen1, Except.map]

/-- The tokenization `runcmd` performs (entered with `argc = 0`): success
with the tokens iff there are at most `MAXARGS - 1` of them, the overflow
error otherwise. -/
lemma tokenizeLoop_zero (l : List Char) :
    tokenizeLoop l 0 =
      if (wsTokens l).length ≤ MAXARGS - 1 then .ok (wsTokens l) else .error () :=
  tokenizeGo_spec (MAXARGS - 1) l

/-- If no registry entry carries the name `t`, the linear scan finds
nothing. -/
lemma findCommand_eq_none (cmds : List Command) (t : String)
    (h : ∀ c ∈ cmds, c.name ≠ t) : findCommand cmds t = none := by
  induction cmds with
  | nil => rfl
  | cons c cs ih =>
      rw [findCommand]
      simp only [h c (by simp), if_false]
      exact ih (fun d hd => h d (by simp [hd]))

/-- On a buffer whose token count stays within the bound, `tokenizeLoop`
succeeds with exactly the whitespace-separated tokens. -/
lemma tokenizeLoop_ok (buf : String) (hlen : (wsTokens buf.toList).length ≤ MAXARGS - 1) :
    tokenizeLoop buf.toList 0 = .ok (wsTokens buf.toList) := by
  rw [tokenizeLoop_zero, if_pos hlen]

/-- `runcmd` on a buffer that overflows tokenization. -/
lemma runcmd_of_error (cmds : List Command) (buf : String) (u : Unit)
    (h : tokenizeLoop buf.toList 0 = .error u) :
    runcmd cmds buf =
      { output := ["Too many arguments (max 16)\n"], invoked := none, ret := some 0 } := by
  unfold runcmd
  rw [h]

/-- `runcmd` on a buffer with no tokens. -/
lemma runcmd_of_empty (cmds : List Command) (buf : String)
    (h : tokenizeLoop buf.toList 0 = .ok []) :
    runcmd cmds buf = { output := [], invoked := none, ret := some 0 } := by
  unfold runcmd
  rw [h]
  rfl

/-- `runcmd` on a buffer with a first token: the dispatch step. -/
lemma runcmd_of_dispatch (cmds : List Command) (buf : String) (t : List Char)
    (ts : List (List Char)) (h : tokenizeLoop buf.toList 0 = .ok (t :: ts)) :
    runcmd cmds buf =
      match findCommand cmds (String.mk t) with
      | some c =>
          { output := [], invoked := some c.name,
            ret := c.func (String.mk t :: ts.map (fun s => String.mk s)) }
      | none =>
          { output := ["Unknown command " ++ sq ++ String.mk t ++ sq ++ "\n"],
            invoked := none, ret := some 0 } := by
  unfold runcmd
  rw [h]
  rfl

/-- The walk loop of `mon_backtrace` follows a well-formed chain exactly,
given enough fuel. -/
lemma monBacktraceLoop_of_chain {mem : Nat → Nat} {fp : Nat} {fps : List Nat}
    (hchain : FPChain mem fp fps) :
    ∀ fuel, fps.length ≤ fuel → monBacktraceLoop mem fuel fp = some fps := by
  induction hchain with
  | nil =>
      intro fuel _
      cases fuel <;> simp [monBacktraceLoop]
  | cons hfp htail ih =>
      intro fuel hlen
      cases fuel with
      | zero => simp at hlen
      | succ f =>
          rw [monBacktraceLoop]
          simp only [hfp, if_false]
          rw [ih f (by simp at hlen; omega)]
          rfl

/-! ### Claim theorems: tokenizer and dispatcher -/

/-- Claim C5 counterexample: a line with exactly 16 whitespace-separated
tokens — a count that does not exceed `MAXARGS` — is nevertheless aborted:
tokenization reports the overflow error and no handler is invoked, refuting
"the tokenizer accepts up to a maximum of MAXARGS (16) tokens per line;
only a line whose token count exceeds 16 aborts". -/
theorem sixteen_token_line_aborts :
    (wsTokens ("a b c d e f g h i j k l m n o p").toList).length = MAXARGS ∧
    runcmd [] "a b c d e f g h i j k l m n o p" =
      { output := ["Too many arguments (max 16)\n"], invoked := none, ret := some 0 } := by
  constructor
  · rfl
  · rfl

/-- Claim C5 (amended): the tokenizer accepts up to `MAXARGS - 1` (15)
tokens per line; a line whose token count reaches 16 or more aborts
tokenization with the overflow error and is treated as a no-op with no
handler invoked. -/
theorem tokenizer_accepts_up_to_fifteen (cmds : List Command) (buf : String) :
    ((wsTokens buf.toList).length ≤ MAXARGS - 1 →
      tokenizeLoop buf.toList 0 = .ok (wsTokens buf.toList)) ∧
    (MAXARGS ≤ (wsTokens buf.toList).length →
      tokenizeLoop buf.toList 0 = .error () ∧ (runcmd cmds buf).invoked = none) := by
  constructor
  · exact tokenizeLoop_ok buf
  · intro hlen
    have herr : tokenizeLoop buf.toList 0 = .error () := by
      rw [tokenizeLoop_zero, if_neg (by simp only [MAXARGS] at hlen ⊢; omega)]
    exact ⟨herr, by rw [runcmd_of_error cmds buf () herr]⟩

/-- Claim C5 (amended) witness: "help now" (two tokens) is parsed in full,
and the 16-token line from the counterexample aborts with no handler. -/
theorem tokenizer_accepts_up_to_fifteen_witness :
    tokenizeLoop ("help now").toList 0 = .ok (wsTokens ("help now").toList) ∧
    ((runcmd [] "a b c d e f g h i j k l m n o p").invoked = none) :=
  ⟨(tokenizer_accepts_up_to_fifteen [] "help now").1 (by decide),
   ((tokenizer_accepts_up_to_fifteen [] "a b c d e f g h i j k l m n o p").2 (by decide)).2⟩

/-- Claim C6: every input line with 16 or more whitespace-separated tokens
makes `runcmd` print exactly the overflow message
`Too many arguments (max 16)`, invoke no handler, and return 0. -/
theorem overflow_line_reports_and_skips (cmds : List Command) (buf : String)
    (h : MAXARGS ≤ (wsTokens buf.toList).length) :
    runcmd cmds buf =
      { output := ["Too many arguments (max 16)\n"], invoked := none, ret := some 0 } := by
  have herr : tokenizeLoop buf.toList 0 = .error () := by
    rw [tokenizeLoop_zero, if_neg (by simp only [MAXARGS] at h ⊢; omega)]
  exact runcmd_of_error cmds buf () herr

/-- Claim C6 witness: the 16-token line `"a a ... a"` triggers the
overflow path. -/
theorem overflow_line_reports_and_skips_witness :
    runcmd [] "a a a a a a a a a a a a a a a a" =
      { output := ["Too many arguments (max 16)\n"], invoked := none, ret := some 0 } :=
  overflow_line_reports_and_skips [] "a a a a a a a a a a a a a a a a" (by decide)

/-- Claim C7: a first token that matches no registered command name
(case-sensitively) makes `runcmd` print `Unknown command '<token>'`, invoke
no handler, and return 0, so the REPL loop goes back to reading. -/
theorem unknown_command_reports_and_continues (cmds : List Command) (buf : String)
    (t : List Char) (ts : List (List Char))
    (htok : wsTokens buf.toList = t :: ts)
    (hlen : (wsTokens buf.toList).length ≤ MAXARGS - 1)
    (hno : ∀ c ∈ cmds, c.name ≠ String.mk t) :
    runcmd cmds buf =
      { output := ["Unknown command " ++ sq ++ String.mk t ++ sq ++ "\n"],
        invoked := none, ret := some 0 } ∧
    monitorStep cmds (some buf) = some true := by
  have hok : tokenizeLoop buf.toList 0 = .ok (t :: ts) := by
    rw [tokenizeLoop_ok buf hlen, htok]
  have hfind := findCommand_eq_none cmds (String.mk t) hno
  have hrun : runcmd cmds buf =
      { output := ["Unknown command " ++ sq ++ String.mk t ++ sq ++ "\n"],
        invoked := none, ret := some 0 } := by
    rw [runcmd_of_dispatch cmds buf t ts hok, hfind]
  exact ⟨hrun, by simp [monitorStep, hrun]⟩

/-- Claim C7 witness: `"foo"` is not a registered name in the built-in
table. -/
theorem unknown_command_reports_and_continues_witness :
    runcmd (commands (fun _ => none) ⟨"", 0, "", 0, 0⟩ (fun _ => 0) 0 0) "foo" =
      { output := ["Unknown command " ++ sq ++ "foo" ++ sq ++ "\n"],
        invoked := none, ret := some 0 } ∧
    monitorStep (commands (fun _ => none) ⟨"", 0, "", 0, 0⟩ (fun _ => 0) 0 0)
      (some "foo") = some true :=
  unknown_command_reports_and_continues _ "foo" ("foo").toList []
    (by decide) (by decide) (by decide)

/-- Claim C8: an empty or all-whitespace line yields zero tokens, invokes
no handler, prints nothing, and returns 0 (a silent no-op). -/
theorem whitespace_line_is_silent_noop (cmds : List Command) (buf : String)
    (h : ∀ c ∈ buf.toList, isWS c) :
    wsTokens buf.toList = [] ∧
    runcmd cmds buf = { output := [], invoked := none, ret := some 0 } := by
  have hnil : wsTokens buf.toList = [] := wsTokens_eq_nil _ h
  have hok : tokenizeLoop buf.toList 0 = .ok [] := by
    rw [tokenizeLoop_ok buf (by rw [hnil]; simp [MAXARGS]), hnil]
  exact ⟨hnil, runcmd_of_empty cmds buf hok⟩

/-- Claim C8 witness: a line of blanks and a tab. -/
theorem whitespace_line_is_silent_noop_witness :
    wsTokens (" \t  ").toList = [] ∧
    runcmd [] " \t  " = { output := [], invoked := none, ret := some 0 } :=
  whitespace_line_is_silent_noop [] " \t  " (by decide)

/-! ### Claim theorems: REPL loop -/

/-- Claim C9: when a dispatched handler returns `r`, the REPL loop reaches
its terminal state iff `r` is negative, and goes back to reading iff `r` is
non-negative. -/
theorem repl_terminates_iff_negative_return (cmds : List Command) (buf : String)
    (name : String) (r : Int)
    (hinv : (runcmd cmds buf).invoked = some name)
    (hret : (runcmd cmds buf).ret = some r) :
    (monitorStep cmds (some buf) = some false ↔ r < 0) ∧
    (monitorStep cmds (some buf) = some true ↔ 0 ≤ r) := by
  rw [monitorStep]
  simp only [hret]
  constructor
  · simp only [Option.some.injEq, decide_eq_false_iff_not]
    omega
  · simp only [Option.some.injEq, decide_eq_true_eq]

/-- Claim C9 witness: a handler returning -1 terminates the loop; one
returning 0 does not. -/
theorem repl_terminates_iff_negative_return_witness :
    (monitorStep [{ name := "quit", desc := "exit", func := fun _ => some (-1) }]
        (some "quit") = some false ↔ (-1 : Int) < 0) ∧
    (monitorStep [{ name := "quit", desc := "exit", func := fun _ => some (-1) }]
        (some "quit") = some true ↔ (0 : Int) ≤ -1) :=
  repl_terminates_iff_negative_return _ "quit" "quit" (-1) (by decide) (by decide)

/-- Claim C10: with the built-in table and a well-formed stack, every
handler and every non-handler path of `runcmd` returns 0, so the REPL step
never signals termination, for any input line. -/
theorem builtin_repl_never_terminates (resolve : Nat → Option Eipdebuginfo)
    (junk : Eipdebuginfo) (mem : Nat → Nat) (fuel ebp : Nat) (fps : List Nat)
    (hchain : FPChain mem ebp fps) (hfuel : fps.length ≤ fuel) :
    ∀ buf : String,
      (runcmd (commands resolve junk mem fuel ebp) buf).ret = some 0 ∧
      monitorStep (commands resolve junk mem fuel ebp) (some buf) = some true := by
  intro buf
  have hbt : mon_backtrace resolve junk mem fuel ebp =
      some ((fps.flatMap (mon_print_frame_descr resolve junk mem)), 0) := by
    rw [mon_backtrace, monBacktraceLoop_of_chain hchain fuel hfuel]
    rfl
  have hret : (runcmd (commands resolve junk mem fuel ebp) buf).ret = some 0 := by
    rcases htok : tokenizeLoop buf.toList 0 with u | toks
    · rw [runcmd_of_error _ buf u htok]
    · rcases toks with _ | ⟨t, ts⟩
      · rw [runcmd_of_empty _ buf htok]
      · rw [runcmd_of_dispatch _ buf t ts htok]
        rcases hfind : findCommand (commands resolve junk mem fuel ebp) (String.mk t)
          with _ | c
        · rfl
        · show c.func (String.mk t :: ts.map (fun s => String.mk s)) = some 0
          simp only [commands, findCommand] at hfind
          split_ifs at hfind with h1 h2 h3
          · simp only [Option.some.injEq] at hfind
            subst hfind
            rfl
          · simp only [Option.some.injEq] at hfind
            subst hfind
            rfl
          · simp only [Option.some.injEq] at hfind
            subst hfind
            show (mon_backtrace resolve junk mem fuel ebp).map (fun p => p.2) = some 0
            rw [hbt]
            rfl
  exact ⟨hret, by simp [monitorStep, hret]⟩

/-- Claim C10 witness: the built-in table over a two-frame stack; the line
`"backtrace"` (a dispatched handler) keeps the loop running. -/
theorem builtin_repl_never_terminates_witness :
    (runcmd (commands (fun _ => none) ⟨"", 0, "", 0, 0⟩
        (fun a => if a = 100 then 200 else 0) 2 100) "backtrace").ret = some 0 ∧
    monitorStep (commands (fun _ => none) ⟨"", 0, "", 0, 0⟩
        (fun a => if a = 100 then 200 else 0) 2 100) (some "backtrace") = some true :=
  builtin_repl_never_terminates (fun _ => none) ⟨"", 0, "", 0, 0⟩
    (fun a => if a = 100 then 200 else 0) 2 100 [100, 200]
    (FPChain.cons (by decide) (FPChain.cons (by decide) FPChain.nil))
    (by decide) "backtrace"

/-! ### Claim theorems: the backtrace walk -/

/-- Claim C2: on a well-formed stack whose saved frame-pointer chain is
`fps` (length N, ending at the zero sentinel), the `mon_backtrace` walk
from the current frame pointer visits exactly the frames `fps` — N of
them, in callee-to-caller (visit) order — and the walk halts immediately
once the frame pointer equals zero. -/
theorem backtrace_walk_yields_chain (mem : Nat → Nat) (fp : Nat) (fps : List Nat)
    (fuel : Nat) (hchain : FPChain mem fp fps) (hfuel : fps.length ≤ fuel) :
    monBacktraceLoop mem fuel fp = some fps ∧
    monBacktraceLoop mem fuel 0 = some [] :=
  ⟨monBacktraceLoop_of_chain hchain fuel hfuel, by cases fuel <;> rfl⟩

/-- Claim C2 witness: a two-frame chain `100 → 200 → 0`. -/
theorem backtrace_walk_yields_chain_witness :
    monBacktraceLoop (fun a => if a = 100 then 200 else 0) 2 100 = some [100, 200] ∧
    monBacktraceLoop (fun a => if a = 100 then 200 else 0) 2 0 = some [] :=
  backtrace_walk_yields_chain (fun a => if a = 100 then 200 else 0) 100 [100, 200] 2
    (FPChain.cons (by decide) (FPChain.cons (by decide) FPChain.nil)) (by decide)

/-! ### Claim theorems: frame formatting -/

/-- Claim C1 counterexample: with a resolver that fails on the frame's
return address, `mon_print_frame_descr` still produces TWO output lines —
the raw frame line and a symbol line — not one: the `cprintf` in
`mon_print_symbols` never inspects the resolver's status. -/
theorem failed_resolution_still_prints_symbol_line :
    (mon_print_frame_descr (fun _ => none) ⟨"", 0, "", 0, 0⟩ (fun _ => 0) 8).length = 2 ∧
    (mon_print_frame_descr (fun _ => none) ⟨"", 0, "", 0, 0⟩ (fun _ => 0) 8).length ≠ 1 :=
  ⟨rfl, by decide⟩

/-- Claim C1 (amended): for every frame, exactly two output lines are
produced whether or not resolution succeeds; when it fails the symbol line
is still emitted, formatted from the (uninitialized) junk contents of the
stack-allocated info struct. -/
theorem frame_descr_always_two_lines (resolve : Nat → Option Eipdebuginfo)
    (junk : Eipdebuginfo) (mem : Nat → Nat) (fp : Nat) :
    (mon_print_frame_descr resolve junk mem fp).length = 2 ∧
    (resolve (mem (fp + 4)) = none →
      mon_print_frame_descr resolve junk mem fp =
        [mon_print_frame mem fp (mem (fp + 4)), formatSymbolLine (mem (fp + 4)) junk]) := by
  constructor
  · rfl
  · intro hres
    simp [mon_print_frame_descr, mon_print_symbols, hres]

/-- Claim C1 (amended) witness: a concrete frame with a failing resolver. -/
theorem frame_descr_always_two_lines_witness :
    (mon_print_frame_descr (fun _ => none) ⟨"f.c", 7, "g", 1, 0⟩ (fun _ => 0) 16).length = 2 ∧
    mon_print_frame_descr (fun _ => none) ⟨"f.c", 7, "g", 1, 0⟩ (fun _ => 0) 16 =
      [mon_print_frame (fun _ => 0) 16 0, formatSymbolLine 0 ⟨"f.c", 7, "g", 1, 0⟩] :=
  ⟨(frame_descr_always_two_lines (fun _ => none) ⟨"f.c", 7, "g", 1, 0⟩ (fun _ => 0) 16).1,
   (frame_descr_always_two_lines (fun _ => none) ⟨"f.c", 7, "g", 1, 0⟩ (fun _ => 0) 16).2 rfl⟩

/-- Claim C3: a successfully resolved frame's symbol line is
`<file>:<line>: <function_name>+<byte_offset>` with the offset the byte
distance from the function start: with file `foo.c`, line 42, function
`bar` starting at `A` and return address `A + 16`, the emitted line is
exactly `foo.c:42: bar+16`. -/
theorem symbol_line_format (resolve : Nat → Option Eipdebuginfo) (junk : Eipdebuginfo)
    (A : Nat) (hA : A + 16 < 2 ^ 32)
    (hres : resolve (A + 16) = some ⟨"foo.c", 42, "bar", 3, A⟩) :
    mon_print_symbols resolve junk (A + 16) = ["foo.c:42: bar+16\n"] := by
  have hoff : symOffset (A + 16) A = 16 := by
    unfold symOffset toInt32
    rw [Nat.mod_eq_of_lt hA, Nat.mod_eq_of_lt (show A < 2 ^ 32 by omega)]
    have h1 : A + 16 + 2 ^ 32 - A = 2 ^ 32 + 16 := by omega
    rw [h1]
    norm_num
  simp only [mon_print_symbols, hres, Option.getD_some, formatSymbolLine]
  rw [hoff]
  rfl

/-- Claim C3 witness: `A = 4096`. -/
theorem symbol_line_format_witness :
    mon_print_symbols
      (fun a => if a = 4096 + 16 then some ⟨"foo.c", 42, "bar", 3, 4096⟩ else none)
      ⟨"", 0, "", 0, 0⟩ (4096 + 16) = ["foo.c:42: bar+16\n"] :=
  symbol_line_format _ _ 4096 (by norm_num) (by simp)

/-- The five-iteration argument loop, unrolled. -/
lemma printArgsLoop_five (mem : Nat → Nat) (a : Nat) :
    printArgsLoop mem a 5 =
      hex8 (mem a) ++ " " ++ (hex8 (mem (a + 4)) ++ " " ++ (hex8 (mem (a + 4 + 4)) ++ " " ++
        (hex8 (mem (a + 4 + 4 + 4)) ++ " " ++
          (hex8 (mem (a + 4 + 4 + 4 + 4)) ++ " " ++ "")))) := rfl

/-- Claim C4: the raw frame line (the first line `mon_print_frame_descr`
emits for a frame) shows the frame-pointer value, the return address read
one word (4 bytes) past the frame pointer, and exactly five argument words
read from 8, 12, 16, 20 and 24 bytes past the frame pointer — the memory
`mem` is wholly unconstrained, so this holds whatever the callee's real
argument count — and every field is fixed-width hexadecimal: `hex8` always
renders exactly 8 digits. -/
theorem raw_frame_line_fields (resolve : Nat → Option Eipdebuginfo)
    (junk : Eipdebuginfo) (mem : Nat → Nat) (fp : Nat) :
    (mon_print_frame_descr resolve junk mem fp).head? =
      some ("ebp " ++ hex8 fp ++ " eip " ++ hex8 (mem (fp + 4)) ++ " args " ++
        (hex8 (mem (fp + 8)) ++ " " ++ (hex8 (mem (fp + 12)) ++ " " ++
          (hex8 (mem (fp + 16)) ++ " " ++ (hex8 (mem (fp + 20)) ++ " " ++
            (hex8 (mem (fp + 24)) ++ " " ++ ""))))) ++ "\n") ∧
    ∀ n : Nat, (hex8 n).length = 8 := by
  constructor
  · show some (mon_print_frame mem fp (mem (fp + 4))) = _
    rw [mon_print_frame, printArgsLoop_five,
      show fp + 8 + 4 = fp + 12 from by omega,
      show fp + 12 + 4 = fp + 16 from by omega,
      show fp + 16 + 4 = fp + 20 from by omega,
      show fp + 20 + 4 = fp + 24 from by omega]
  · intro n
    simp [hex8, String.length]

end Monitor
